import Mathlib

/-!
Verification of the kagami ISO-builder pipeline (package `builder`,
files `builder.go` and `helpers.go`, first revision in the tree).

The Go code is shallowly embedded: each phase of the build pipeline
becomes a pure Lean function over an explicit environment that supplies
the outcomes of external commands (`debootstrap`, `mount`, `apt-get`,
`umount`, ...) and the observable host state (`/proc/mounts` contents,
file existence, network fetches).  Each function returns its result
together with the trace of external commands it invoked, so that
temporal claims ("phase K+1 is never invoked after phase K fails") are
expressible as facts about the trace.
-/

namespace Kagami

/-! ## Go string primitives

Go strings are modelled as Lean `String`s; `strings.Contains`,
`strings.Fields`, `strings.Split(s, "\n")` and `strings.Join(l, "\n")`
are re-implemented below.  For the manifest-filtering proofs the
split/join pair is defined on `List Char` (the character data of a Go
string) so that the round-trip lemmas can be proved by structural
induction. -/

/-- Prefix test on character lists: `hasPre needle hay` is true iff
`needle` is an initial segment of `hay`. -/
def hasPre : List Char → List Char → Bool
  | [], _ => true
  | _ :: _, [] => false
  | a :: as, b :: bs => a == b && hasPre as bs

/-- Substring test on character lists, the model of Go
`strings.Contains(hay, needle)`: true iff `needle` occurs contiguously
inside `hay`. -/
def occursIn (needle : List Char) : List Char → Bool
  | [] => hasPre needle []
  | b :: t => hasPre needle (b :: t) || occursIn needle t

/-- Model of Go `strings.Contains(s, sub)` on `String`. -/
def goContains (s sub : String) : Bool :=
  occursIn sub.data s.data

/-- Whitespace recognizer used by the model of Go `strings.Fields`
(ASCII whitespace, which is all that occurs in `/proc/mounts` lines). -/
def isSpaceChar (c : Char) : Bool :=
  c == ' ' || c == '\t' || c == '\n' || c == '\r' || c == '\x0b' || c == '\x0c'

/-- Accumulating splitter behind `goFields`: `cur` is the reversed
current field. -/
def fieldsGo : List Char → List Char → List (List Char)
  | cur, [] => if cur.isEmpty then [] else [cur.reverse]
  | cur, c :: rest =>
    if isSpaceChar c then
      if cur.isEmpty then fieldsGo [] rest
      else cur.reverse :: fieldsGo [] rest
    else fieldsGo (c :: cur) rest

/-- Model of Go `strings.Fields`: split around runs of whitespace,
discarding empty fields. -/
def goFields (s : String) : List String :=
  (fieldsGo [] s.data).map fun cs => String.mk cs

/-- Model of Go `strings.Split(s, "\n")` on character data: the list of
newline-free pieces between the newlines of the input. -/
def splitNl : List Char → List (List Char)
  | [] => [[]]
  | c :: rest =>
    if c = '\n' then [] :: splitNl rest
    else
      match splitNl rest with
      | [] => [[c]]
      | h :: t => (c :: h) :: t

/-- Model of Go `strings.Join(pieces, "\n")` on character data.  Note
that Go `strings.Join` of an empty slice yields the empty string, which
is what the builder writes when every manifest line was filtered away. -/
def joinNl : List (List Char) → List Char
  | [] => []
  | [l] => l
  | l :: ls => l ++ '\n' :: joinNl ls

/-! ## Build pipeline skeleton (`Build`, builder.go lines 71-104)

`Build` iterates over a fixed list of named steps; the first failing
step aborts the loop and its error is wrapped as
`fmt.Errorf("%s failed: %v", step.name, err)`.  The embedding keeps the
step list abstract in the state type `σ` and the per-step functions, and
additionally records the name of every step function that was invoked,
so the no-later-phase-runs property is a statement about that trace. -/

/-- One entry of the `steps` slice of `Build`: a human label and the
phase function. -/
structure BuildStep (σ : Type) where
  name : String
  run : σ → Except String σ

/-- Error message produced by `Build` for a failing step, from
`fmt.Errorf("%s failed: %v", step.name, err)` (builder.go line 99). -/
def stepErrMsg (name cause : String) : String :=
  name ++ " failed: " ++ cause

/-- Model of the `for i, step := range steps` loop of `Build`
(builder.go lines 96-101), instrumented with the list of step names in
invocation order.  A step's function is applied exactly when its name is
appended to the trace; on the first error the loop stops and the error
is wrapped by `stepErrMsg`. -/
def runStepsTr {σ : Type} : List (BuildStep σ) → σ → (Except String σ) × List String
  | [], s => (.ok s, [])
  | st :: rest, s =>
    match st.run s with
    | .error e => (.error (stepErrMsg st.name e), [st.name])
    | .ok s1 =>
      let r := runStepsTr rest s1
      (r.1, st.name :: r.2)

/-- The fourteen phase labels of `Build`, in source order (builder.go
lines 79-93). -/
def buildStepNames : List String :=
  ["Checking prerequisites",
   "Creating directories",
   "Bootstrapping base system",
   "Mounting filesystems",
   "Configuring system",
   "Blocking snapd permanently",
   "Installing packages",
   "Installing desktop environment",
   "Configuring Flatpak",
   "Configuring bootloader",
   "Cleaning up chroot",
   "Creating filesystem image",
   "Creating ISO",
   "Cleaning up"]

/-- A trivially succeeding step with the given label, used to instantiate
the pipeline at concrete inputs. -/
def demoOkStep (n : String) : BuildStep Unit :=
  ⟨n, fun _ => .ok ()⟩

/-- The `Build` step list with every phase function stubbed to succeed
except the third (bootstrap), which fails with cause "boom": the
fault-injection instance used to inspect the error `Build` returns. -/
def demoBuild : List (BuildStep Unit) :=
  [demoOkStep "Checking prerequisites",
   demoOkStep "Creating directories",
   ⟨"Bootstrapping base system", fun _ => .error "boom"⟩]
  ++ (buildStepNames.drop 3).map demoOkStep

/-- First two steps of the fault-injection instance. -/
def demoPre : List (BuildStep Unit) :=
  [demoOkStep "Checking prerequisites", demoOkStep "Creating directories"]

/-- The injected failing bootstrap step. -/
def demoFailStep : BuildStep Unit :=
  ⟨"Bootstrapping base system", fun _ => .error "boom"⟩

/-- Steps after the injected failure. -/
def demoPost : List (BuildStep Unit) :=
  (buildStepNames.drop 3).map demoOkStep

/-- C1 counterexample.  The claim asserts that on a phase failure `Build`
returns a failure identifying the failing phase's ordinal as well as its
label and cause.  At the concrete input where phase 3 of 14
("Bootstrapping base system") fails with cause "boom", the error `Build`
returns is exactly "Bootstrapping base system failed: boom": it contains
the label and the cause but no occurrence of the ordinal 3 (nor of the
"[3/14]" progress marker, which is only printed to stdout before the
phase runs, builder.go line 97), so the returned failure does not carry
the phase ordinal. -/
theorem build_error_lacks_ordinal_cex :
    demoBuild.map BuildStep.name = buildStepNames ∧
    (runStepsTr demoBuild ()).1 = .error "Bootstrapping base system failed: boom" ∧
    goContains "Bootstrapping base system failed: boom" "3" = false ∧
    goContains "Bootstrapping base system failed: boom" "[3/14]" = false :=
  ⟨rfl, rfl, rfl, rfl⟩

/-- C1 (amended).  If every step before step `st` succeeds and `st`'s
function fails with cause `e`, then `Build`'s loop stops at `st`: the
result is the wrapped error naming the failing phase's label and the
underlying cause, and the invocation trace is the trace of the
successful prefix followed by `st.name` alone — it does not depend on
the later steps `post`, whose functions are therefore never invoked. -/
theorem build_stops_at_first_failure {σ : Type} (pre post : List (BuildStep σ))
    (st : BuildStep σ) (s0 s1 : σ) (tr : List String) (e : String)
    (hpre : runStepsTr pre s0 = (.ok s1, tr))
    (hfail : st.run s1 = .error e) :
    runStepsTr (pre ++ st :: post) s0 =
      (.error (stepErrMsg st.name e), tr ++ [st.name]) := by
  induction pre generalizing s0 tr with
  | nil =>
    simp only [runStepsTr, Prod.mk.injEq] at hpre
    obtain ⟨h1, h2⟩ := hpre
    cases h1
    subst h2
    simp [runStepsTr, hfail]
  | cons p ps ih =>
    simp only [runStepsTr] at hpre
    cases hp : p.run s0 with
    | error e0 => rw [hp] at hpre; simp at hpre
    | ok s2 =>
      rw [hp] at hpre
      simp only [Prod.mk.injEq] at hpre
      obtain ⟨h1, h2⟩ := hpre
      cases hps : runStepsTr ps s2 with
      | mk r tr0 =>
        rw [hps] at h1 h2
        simp at h1 h2
        subst h2
        have hrec := ih s2 tr0 (by rw [hps, h1])
        simp only [List.cons_append, runStepsTr, hp]
        rw [show ps.append (st :: post) = ps ++ st :: post from rfl, hrec]

/-- C1 witness: the amended theorem applied at the concrete
fault-injection instance, with both hypotheses discharged by
evaluation. -/
theorem build_stops_at_first_failure_witness :
    runStepsTr (demoPre ++ demoFailStep :: demoPost) () =
      (.error (stepErrMsg "Bootstrapping base system" "boom"),
       ["Checking prerequisites", "Creating directories"] ++ ["Bootstrapping base system"]) :=
  build_stops_at_first_failure demoPre demoPost demoFailStep () ()
    ["Checking prerequisites", "Creating directories"] "boom" rfl rfl

/-! ## Configuration and builder state (config package and builder.go lines 21-45)

Only the configuration fields read by the verified phases are carried. -/

/-- The slice of `config.Config` read by the builder phases under
verification: distribution, release, architecture, mirror, kernel and
package lists, and the two snapd-blocking flags. -/
structure Config where
  distro : String
  release : String
  architecture : String
  mirror : String
  kernel : String
  essential : List String
  additional : List String
  useProposed : Bool
  blockSnapdForever : Bool
  blockSnapd : Bool

/-- The `Builder` struct (builder.go lines 21-29).  `chrootDir` and
`imageDir` are the absolute paths `filepath.Join(workDir, "chroot")` and
`filepath.Join(workDir, "image")`. -/
structure Builder where
  config : Config
  workDir : String
  outputISO : String
  chrootDir : String
  imageDir : String
  debianAlias : String
  prettyName : String

/-- Model of `(b *Builder) isDebian` (builder.go lines 43-45). -/
def isDebian (b : Builder) : Bool :=
  b.config.distro == "debian"

/-- Mirror defaulting shared by `bootstrapSystem` and
`generateSourcesList` (builder.go lines 165-172, helpers.go lines
410-417): an empty configured mirror falls back to the distribution
default. -/
def effectiveMirror (b : Builder) : String :=
  if b.config.mirror == "" then
    if isDebian b then "http://deb.debian.org/debian/"
    else "http://archive.ubuntu.com/ubuntu/"
  else b.config.mirror

/-! ## Mount phase (`mountFilesystems`, builder.go lines 201-243, and
`isMounted`, helpers.go lines 551-571)

`isMounted` reads `/proc/mounts` and compares the second
whitespace-separated field of each line (the mount point) for equality
with the resolved absolute target path.  The embedding takes the mount
table as a list of lines and the already-resolved absolute path; the
source's `filepath.Abs` is the identity on the targets in question,
which are built by `filepath.Join` from the absolute work directory. -/

/-- Model of `isMounted` (helpers.go lines 551-571): true iff some line
of `/proc/mounts` has at least two fields and its second field equals
the resolved absolute path. -/
def isMounted (procMounts : List String) (absPath : String) : Bool :=
  procMounts.any fun line =>
    match goFields line with
    | _ :: mp :: _ => mp == absPath
    | _ => false

/-- One entry of the `mounts` slice of `mountFilesystems` (builder.go
lines 203-211). -/
structure MountReq where
  source : String
  target : String
  fstype : String
  flags : String

/-- The two bind-mount requests of `mountFilesystems`: `/dev` and `/run`
into the chroot (builder.go lines 208-211); `filepath.Join(chrootDir,
"dev")` is `chrootDir ++ "/dev"` for a clean absolute chroot path. -/
def mountReqs (chrootDir : String) : List MountReq :=
  [⟨"/dev", chrootDir ++ "/dev", "", "bind"⟩,
   ⟨"/run", chrootDir ++ "/run", "", "bind"⟩]

/-- Environment of the mount phase: the current `/proc/mounts` lines and
the outcomes of `os.MkdirAll` and of the external `mount` command per
target, plus the container flag that only enlarges the error text. -/
structure MountEnv where
  procMounts : List String
  mkdirOk : String → Bool
  mountOk : String → Bool
  isContainer : Bool

/-- The `mount` command line assembled for a request (builder.go lines
226-231). -/
def mountCmd (m : MountReq) : List String :=
  if m.flags == "bind" then ["mount", "--bind", m.source, m.target]
  else ["mount", "-t", m.fstype, m.source, m.target]

/-- Model of one iteration of the `for _, m := range mounts` loop
(builder.go lines 213-240): skip silently when the target is already
mounted, otherwise create the target directory and invoke `mount`,
failing the phase if either errors.  Returns the result and the list of
`mount` invocations performed.  The `: %v` cause Go appends to the error
messages comes from the OS and is elided. -/
def mountOne (env : MountEnv) (m : MountReq) :
    (Except String Unit) × List (List String) :=
  if isMounted env.procMounts m.target then (.ok (), [])
  else if !env.mkdirOk m.target then
    (.error ("failed to create mount target " ++ m.target), [])
  else if env.mountOk m.target then (.ok (), [mountCmd m])
  else
    let base := "failed to mount " ++ m.target
    (.error (if env.isContainer then
        base ++ "\n[TIP] In a container, this usually requires a privileged mode or CAP_SYS_ADMIN."
      else base), [mountCmd m])

/-- Model of `mountFilesystems` (builder.go lines 201-243): the loop over
both requests, stopping at the first failing one. -/
def mountFilesystems (env : MountEnv) (chrootDir : String) :
    (Except String Unit) × List (List String) :=
  (mountReqs chrootDir).foldl
    (fun acc m =>
      match acc.1 with
      | .error e => (.error e, acc.2)
      | .ok _ =>
        let r := mountOne env m
        (r.1, acc.2 ++ r.2))
    (.ok (), [])

/-- The `/dev` bind-mount request. -/
def devReq (chrootDir : String) : MountReq :=
  ⟨"/dev", chrootDir ++ "/dev", "", "bind"⟩

/-- The `/run` bind-mount request. -/
def runReq (chrootDir : String) : MountReq :=
  ⟨"/run", chrootDir ++ "/run", "", "bind"⟩

theorem mountReqs_eq (chrootDir : String) :
    mountReqs chrootDir = [devReq chrootDir, runReq chrootDir] := rfl

theorem mountFilesystems_eq (env : MountEnv) (chrootDir : String) :
    mountFilesystems env chrootDir =
      match (mountOne env (devReq chrootDir)).1 with
      | .error e => (.error e, (mountOne env (devReq chrootDir)).2)
      | .ok _ =>
        ((mountOne env (runReq chrootDir)).1,
         (mountOne env (devReq chrootDir)).2 ++ (mountOne env (runReq chrootDir)).2) := by
  unfold mountFilesystems
  rw [mountReqs_eq]
  simp only [List.foldl]
  cases h : (mountOne env (devReq chrootDir)).1 with
  | error e => simp [h]
  | ok u =>
    simp only [h]
    cases (mountOne env (runReq chrootDir)).1 <;> simp

/-- The trace contributed by one mount request is either empty or its
single `mount` command line. -/
theorem mountOne_trace_sub (env : MountEnv) (m : MountReq) :
    (mountOne env m).2 = [] ∨ (mountOne env m).2 = [mountCmd m] := by
  unfold mountOne
  cases h1 : isMounted env.procMounts m.target
  · cases h2 : env.mkdirOk m.target
    · simp
    · cases h3 : env.mountOk m.target <;> simp
  · simp

/-- Membership characterization of `isMounted`: the test succeeds exactly
when some mount-table line's second field (its mount point) equals the
resolved absolute path — field equality, not substring containment. -/
theorem isMounted_iff (procMounts : List String) (absPath : String) :
    isMounted procMounts absPath = true ↔
      ∃ line ∈ procMounts, (goFields line).get? 1 = some absPath := by
  unfold isMounted
  rw [List.any_eq_true]
  constructor
  · rintro ⟨line, hline, hp⟩
    refine ⟨line, hline, ?_⟩
    cases hf : goFields line with
    | nil => rw [hf] at hp; simp at hp
    | cons a t =>
      cases t with
      | nil => rw [hf] at hp; simp at hp
      | cons mp t2 =>
        rw [hf] at hp
        simp only [beq_iff_eq] at hp
        simp [hp]
  · rintro ⟨line, hline, hp⟩
    refine ⟨line, hline, ?_⟩
    cases hf : goFields line with
    | nil => rw [hf] at hp; simp at hp
    | cons a t =>
      cases t with
      | nil => rw [hf] at hp; simp at hp
      | cons mp t2 =>
        rw [hf] at hp
        simp only [List.get?] at hp
        simp only [Option.some.injEq] at hp
        simp [hp]

/-- C2.  Mount idempotence and exactness of the already-mounted test:
(1) a request whose resolved absolute target is already a mount point is
skipped with success and contributes no `mount` invocation;
(2) when both targets are mounted the whole phase succeeds invoking
nothing;
(3) a mounted target's `mount` command never occurs in the phase trace,
whatever happens to the other target;
(4) `isMounted` is exact comparison against the mount-point field; in
particular (5) a mount-table line that contains the target as a mere
substring of a longer mount point does not count as mounted. -/
theorem mount_skips_already_mounted (env : MountEnv) (chrootDir : String) :
    (∀ m ∈ mountReqs chrootDir, isMounted env.procMounts m.target = true →
        mountOne env m = (.ok (), [])) ∧
    ((∀ m ∈ mountReqs chrootDir, isMounted env.procMounts m.target = true) →
        mountFilesystems env chrootDir = (.ok (), [])) ∧
    (∀ m ∈ mountReqs chrootDir, isMounted env.procMounts m.target = true →
        mountCmd m ∉ (mountFilesystems env chrootDir).2) ∧
    (∀ mounts path, isMounted mounts path = true ↔
        ∃ line ∈ mounts, (goFields line).get? 1 = some path) ∧
    (goContains "udev /work/chroot/dev2 devtmpfs rw,nosuid 0 0" "/work/chroot/dev" = true ∧
     isMounted ["udev /work/chroot/dev2 devtmpfs rw,nosuid 0 0"] "/work/chroot/dev" = false) := by
  have hone : ∀ m, isMounted env.procMounts m.target = true →
      mountOne env m = (.ok (), []) := by
    intro m hm
    simp [mountOne, hm]
  have hcmdne : mountCmd (devReq chrootDir) ≠ mountCmd (runReq chrootDir) := by
    simp [mountCmd, devReq, runReq]
  refine ⟨?_, ?_, ?_, isMounted_iff, by decide, by decide⟩
  · intro m _ hm
    exact hone m hm
  · intro hall
    have hdev := hone _ (hall (devReq chrootDir) (by simp [mountReqs_eq]))
    have hrun := hone _ (hall (runReq chrootDir) (by simp [mountReqs_eq]))
    rw [mountFilesystems_eq, hdev, hrun]
    rfl
  · intro m hm hmt
    rw [mountReqs_eq] at hm
    simp only [List.mem_cons, List.not_mem_nil, or_false] at hm
    have hskip := hone m hmt
    rcases hm with hm | hm
    · subst hm
      rw [mountFilesystems_eq, hskip]
      simp only
      intro hmem
      simp only [List.nil_append] at hmem
      rcases mountOne_trace_sub env (runReq chrootDir) with h | h
      · rw [h] at hmem; simp at hmem
      · rw [h] at hmem
        simp only [List.mem_singleton] at hmem
        exact hcmdne hmem
    · subst hm
      rw [mountFilesystems_eq]
      cases hd : (mountOne env (devReq chrootDir)).1 with
      | error e =>
        simp only
        intro hmem
        rcases mountOne_trace_sub env (devReq chrootDir) with h | h
        · rw [h] at hmem; simp at hmem
        · rw [h] at hmem
          simp only [List.mem_singleton] at hmem
          exact hcmdne hmem.symm
      | ok u =>
        simp only [hskip]
        intro hmem
        simp only [List.append_nil] at hmem
        rcases mountOne_trace_sub env (devReq chrootDir) with h | h
        · rw [h] at hmem; simp at hmem
        · rw [h] at hmem
          simp only [List.mem_singleton] at hmem
          exact hcmdne hmem.symm

/-- C2 witness: the theorem applied with a concrete mount table in which
both chroot targets are present verbatim, discharging the hypotheses by
evaluation: the phase returns success with an empty invocation trace. -/
theorem mount_skips_already_mounted_witness :
    mountFilesystems
      ⟨["udev /work/chroot/dev devtmpfs rw 0 0",
        "tmpfs /work/chroot/run tmpfs rw 0 0"],
       fun _ => true, fun _ => true, false⟩ "/work/chroot" = (.ok (), []) :=
  (mount_skips_already_mounted _ "/work/chroot").2.1 (by decide)

/-! ## Bootstrap phase (`bootstrapSystem`, builder.go lines 158-198)

The phase first checks `os.Stat(filepath.Join(b.ChrootDir, "etc"))`; if
that entry exists it logs and returns nil without touching debootstrap.
Otherwise it invokes `debootstrap` once with the suite derived from the
release ("devel" is bootstrapped as "noble", builder.go lines 174-179).
The environment carries the two external facts: whether `chroot/etc`
exists and whether the debootstrap command succeeds. -/

/-- External facts consumed by the bootstrap phase. -/
structure BootEnv where
  etcExists : Bool
  debootstrapOk : Bool
  isContainer : Bool

/-- Suite passed to debootstrap (builder.go lines 175-179): the "devel"
alias is bootstrapped from the latest LTS "noble", every other release
string is passed through. -/
def bootstrapSuite (release : String) : String :=
  if release == "devel" then "noble" else release

/-- Argument list of the debootstrap invocation (builder.go lines
181-187). -/
def debootstrapArgs (b : Builder) : List String :=
  ["--arch=" ++ b.config.architecture, "--variant=minbase",
   bootstrapSuite b.config.release, b.chrootDir, effectiveMirror b]

/-- Error text of a failed bootstrap (builder.go lines 191-196); inside
a container the message carries an actionable tip.  The model keeps the
message prefix; the wrapped cause text comes from the OS. -/
def debootstrapFailMsg (isContainer : Bool) : String :=
  if isContainer then
    "debootstrap failed\n[TIP] In a container, debootstrap requires '--privileged' or 'CAP_MKNOD' to create device nodes."
  else "debootstrap failed"

/-- Model of `bootstrapSystem` (builder.go lines 158-198): result plus
the list of debootstrap invocations performed. -/
def bootstrapSystem (b : Builder) (env : BootEnv) :
    (Except String Unit) × List (List String) :=
  if env.etcExists then (.ok (), [])
  else
    ((if env.debootstrapOk then .ok ()
      else .error (debootstrapFailMsg env.isContainer)),
     ["debootstrap" :: debootstrapArgs b])

/-- Modelled from the spec: a successful debootstrap run populates the
chroot directory with a base system, in particular creating its `/etc`
("Bootstrap base filesystem into chroot directory via the bootstrap
tool, skipped if chroot already contains a populated `/etc`"); the
populating itself is behavior of the external debootstrap binary, not
code of this repository.  `etcAfterBootstrap env` is whether `chroot/etc`
exists after one run of the phase in `env`. -/
def etcAfterBootstrap (env : BootEnv) : Bool :=
  env.etcExists || env.debootstrapOk

/-- C3.  Idempotent bootstrap: a run that finds `chroot/etc` already
present succeeds without invoking debootstrap, and across two successive
runs of the phase against the same workspace whose first run succeeds,
debootstrap is invoked at most once in total. -/
theorem bootstrap_idempotent (b : Builder) (env : BootEnv) :
    (env.etcExists = true → bootstrapSystem b env = (.ok (), [])) ∧
    ((bootstrapSystem b env).1 = .ok () →
      (bootstrapSystem b env).2.length
        + (bootstrapSystem b { env with etcExists := etcAfterBootstrap env }).2.length ≤ 1) := by
  constructor
  · intro h
    simp [bootstrapSystem, h]
  · intro hok
    cases he : env.etcExists
    · cases hd : env.debootstrapOk
      · simp [bootstrapSystem, he, hd] at hok
      · simp [bootstrapSystem, etcAfterBootstrap, he, hd]
    · simp [bootstrapSystem, etcAfterBootstrap, he]

/-- C3 witness: both conjuncts applied at concrete environments — a
pre-populated workspace skips debootstrap, and a fresh workspace whose
bootstrap succeeds performs one invocation across two runs. -/
theorem bootstrap_idempotent_witness :
    (bootstrapSystem ⟨⟨"ubuntu", "noble", "amd64", "", "", [], [], false, true, true⟩,
        "/w", "/o.iso", "/w/chroot", "/w/image", "", ""⟩ ⟨true, true, false⟩ = (.ok (), [])) ∧
    ((bootstrapSystem ⟨⟨"ubuntu", "noble", "amd64", "", "", [], [], false, true, true⟩,
        "/w", "/o.iso", "/w/chroot", "/w/image", "", ""⟩ ⟨false, true, false⟩).2.length
      + (bootstrapSystem ⟨⟨"ubuntu", "noble", "amd64", "", "", [], [], false, true, true⟩,
        "/w", "/o.iso", "/w/chroot", "/w/image", "", ""⟩
          { (⟨false, true, false⟩ : BootEnv) with
            etcExists := etcAfterBootstrap ⟨false, true, false⟩ }).2.length ≤ 1) :=
  ⟨(bootstrap_idempotent _ _).1 rfl,
   (bootstrap_idempotent _ ⟨false, true, false⟩).2 rfl⟩

/-! ## Apt sources, volume id, distribution name (helpers.go lines
409-477, line 286, builder.go lines 48-68)

These are the downstream consumers of `Config.Release` relevant to the
"devel" claim. -/

/-- Model of Go `strings.ToUpper` for the ASCII strings it is applied
to. -/
def goToUpper (s : String) : String :=
  String.mk (s.data.map Char.toUpper)

/-- Model of Go `strings.ToLower` for the ASCII strings it is applied
to. -/
def goToLower (s : String) : String :=
  String.mk (s.data.map Char.toLower)

/-- Character-level worker of `goTitle`; the flag records whether the
previous character was a word separator. -/
def goTitleGo : Bool → List Char → List Char
  | _, [] => []
  | prevSep, c :: rest =>
    (if prevSep then c.toUpper else c) :: goTitleGo (!(c.isAlpha || c.isDigit)) rest

/-- Model of Go `strings.Title` for the ASCII release aliases it is
applied to: upper-case every character that follows a non-alphanumeric
boundary. -/
def goTitle (s : String) : String :=
  String.mk (goTitleGo true s.data)

/-- Model of `getDistName` (builder.go lines 48-68); the Go `switch` on
the release is the equality chain below. -/
def getDistName (b : Builder) : String :=
  if b.prettyName != "" then b.prettyName
  else if isDebian b then
    if b.debianAlias != "" then "Debian " ++ goTitle b.debianAlias
    else "Debian (" ++ b.config.release ++ ")"
  else if b.config.release == "focal" || b.config.release == "jammy" ||
      b.config.release == "noble" || b.config.release == "resolute" then "Ubuntu LTS"
  else if b.config.release == "devel" then "Ubuntu Rolling"
  else "Ubuntu Custom"

/-- The heredoc opening shared by every generated sources list
(helpers.go lines 422, 427, 446). -/
def sourcesHeader : String :=
  "cat > /etc/apt/sources.list <<'EOF'\n"

/-- Ubuntu sources body (helpers.go lines 446-463). -/
def ubuntuSources (mirror rel : String) : String :=
  "deb " ++ mirror ++ " " ++ rel ++ " main restricted universe multiverse\n" ++
  "deb-src " ++ mirror ++ " " ++ rel ++ " main restricted universe multiverse\n\n" ++
  "deb " ++ mirror ++ " " ++ rel ++ "-security main restricted universe multiverse\n" ++
  "deb-src " ++ mirror ++ " " ++ rel ++ "-security main restricted universe multiverse\n\n" ++
  "deb " ++ mirror ++ " " ++ rel ++ "-updates main restricted universe multiverse\n" ++
  "deb-src " ++ mirror ++ " " ++ rel ++ "-updates main restricted universe multiverse\n"

/-- Debian sid/unstable sources body (helpers.go lines 422-425). -/
def debianSidSources (mirror rel : String) : String :=
  "deb " ++ mirror ++ " " ++ rel ++ " main contrib non-free non-free-firmware\n" ++
  "deb-src " ++ mirror ++ " " ++ rel ++ " main contrib non-free non-free-firmware\n"

/-- Debian stable-like sources body (helpers.go lines 427-444). -/
def debianSources (mirror rel : String) : String :=
  "deb " ++ mirror ++ " " ++ rel ++ " main contrib non-free non-free-firmware\n" ++
  "deb-src " ++ mirror ++ " " ++ rel ++ " main contrib non-free non-free-firmware\n\n" ++
  "deb " ++ mirror ++ " " ++ rel ++ "-updates main contrib non-free non-free-firmware\n" ++
  "deb-src " ++ mirror ++ " " ++ rel ++ "-updates main contrib non-free non-free-firmware\n\n" ++
  "deb http://security.debian.org/debian-security " ++ rel ++ "-security main contrib non-free non-free-firmware\n" ++
  "deb-src http://security.debian.org/debian-security " ++ rel ++ "-security main contrib non-free non-free-firmware\n"

/-- Proposed-pocket addition (helpers.go lines 466-472). -/
def proposedBlock (mirror rel : String) : String :=
  "\ndeb " ++ mirror ++ " " ++ rel ++ "-proposed main restricted universe multiverse\n" ++
  "deb-src " ++ mirror ++ " " ++ rel ++ "-proposed main restricted universe multiverse\n"

/-- Model of `generateSourcesList` (helpers.go lines 409-477). -/
def generateSourcesList (b : Builder) : String :=
  let mirror := effectiveMirror b
  let rel := b.config.release
  let base :=
    if isDebian b then
      if b.debianAlias == "unstable" || rel == "sid" then
        sourcesHeader ++ debianSidSources mirror rel
      else sourcesHeader ++ debianSources mirror rel
    else sourcesHeader ++ ubuntuSources mirror rel
  let withProposed :=
    if b.config.useProposed && rel != "sid" && rel != "unstable" then
      base ++ proposedBlock mirror rel
    else base
  withProposed ++ "EOF"

/-- Volume identifier of the final ISO (helpers.go line 286):
`KAGAMI_<RELEASE>_<ARCH>` upper-cased. -/
def isoVolid (b : Builder) : String :=
  "KAGAMI_" ++ goToUpper b.config.release ++ "_" ++ goToUpper b.config.architecture

/-- C9.  For an Ubuntu configuration with release "devel":
the bootstrap suite is "noble" and the (single) debootstrap invocation of
a fresh workspace carries "noble" as its suite argument, while
`Config.Release` stays "devel" everywhere downstream — the generated apt
sources target "devel", the ISO volume id upper-cases "devel", and the
distribution display name is the rolling one. -/
theorem devel_bootstrap_uses_noble (b : Builder) (env : BootEnv)
    (hdist : b.config.distro = "ubuntu") (hrel : b.config.release = "devel")
    (hmir : b.config.mirror = "") (harch : b.config.architecture = "amd64")
    (hname : b.prettyName = "") (hprop : b.config.useProposed = false) :
    bootstrapSuite b.config.release = "noble" ∧
    (env.etcExists = false →
      (bootstrapSystem b env).2 =
        [["debootstrap", "--arch=amd64", "--variant=minbase", "noble",
          b.chrootDir, "http://archive.ubuntu.com/ubuntu/"]]) ∧
    generateSourcesList b =
      "cat > /etc/apt/sources.list <<'EOF'\n" ++
      "deb http://archive.ubuntu.com/ubuntu/ devel main restricted universe multiverse\n" ++
      "deb-src http://archive.ubuntu.com/ubuntu/ devel main restricted universe multiverse\n\n" ++
      "deb http://archive.ubuntu.com/ubuntu/ devel-security main restricted universe multiverse\n" ++
      "deb-src http://archive.ubuntu.com/ubuntu/ devel-security main restricted universe multiverse\n\n" ++
      "deb http://archive.ubuntu.com/ubuntu/ devel-updates main restricted universe multiverse\n" ++
      "deb-src http://archive.ubuntu.com/ubuntu/ devel-updates main restricted universe multiverse\n" ++
      "EOF" ∧
    isoVolid b = "KAGAMI_DEVEL_AMD64" ∧
    getDistName b = "Ubuntu Rolling" := by
  refine ⟨?_, ?_, ?_, ?_, ?_⟩
  · rw [hrel]
    rfl
  · intro h
    simp [bootstrapSystem, h, debootstrapArgs, bootstrapSuite, effectiveMirror,
      isDebian, hdist, hmir, harch, hrel]
  · simp [generateSourcesList, effectiveMirror, isDebian, hdist, hmir, hrel, hprop,
      sourcesHeader, ubuntuSources]
  · rw [isoVolid, hrel, harch]
    rfl
  · simp [getDistName, isDebian, hdist, hrel, hname]

/-- C9 witness: the theorem applied at a concrete devel builder. -/
theorem devel_bootstrap_uses_noble_witness :
    bootstrapSuite
      (⟨⟨"ubuntu", "devel", "amd64", "", "", [], [], false, true, true⟩,
        "/w", "/o.iso", "/w/chroot", "/w/image", "", ""⟩ : Builder).config.release = "noble" ∧
    isoVolid ⟨⟨"ubuntu", "devel", "amd64", "", "", [], [], false, true, true⟩,
        "/w", "/o.iso", "/w/chroot", "/w/image", "", ""⟩ = "KAGAMI_DEVEL_AMD64" :=
  ⟨(devel_bootstrap_uses_noble _ ⟨true, true, false⟩ rfl rfl rfl rfl rfl rfl).1,
   (devel_bootstrap_uses_noble _ ⟨true, true, false⟩ rfl rfl rfl rfl rfl rfl).2.2.2.1⟩

/-! ## Package installation phase (`installPackages`, builder.go lines
302-352)

Four apt-get invocations in order: dist-upgrade, essential packages,
kernel plus matching headers, additional packages.  The first three
propagate their error (aborting the phase and hence the pipeline); the
fourth only logs a warning.  The environment carries the four external
command outcomes. -/

/-- Outcomes of the four apt-get invocations of the package phase. -/
structure AptEnv where
  distUpgradeOk : Bool
  essentialOk : Bool
  kernelOk : Bool
  additionalOk : Bool

/-- The dist-upgrade command (builder.go line 304). -/
def upgradeCmd : String :=
  "DEBIAN_FRONTEND=noninteractive apt-get -y dist-upgrade"

/-- The essential-package install command (builder.go lines 309-310). -/
def essentialCmd (b : Builder) : String :=
  "DEBIAN_FRONTEND=noninteractive apt-get install -y "
    ++ String.intercalate " " b.config.essential

/-- Kernel package selection (builder.go lines 315-324): the configured
kernel, defaulting per distribution and architecture. -/
def kernelPkgName (b : Builder) : String :=
  if b.config.kernel != "" then b.config.kernel
  else if isDebian b then
    if b.config.architecture == "arm64" then "linux-image-arm64"
    else "linux-image-amd64"
  else "linux-generic"

/-- Drop a known initial segment of a string (worker for the Go
`strings.Replace(s, old, new, 1)` and `strings.TrimPrefix` calls, both
applied under a `strings.HasPrefix` guard). -/
def dropPre (pre s : String) : String :=
  String.mk (s.data.drop pre.data.length)

/-- Headers package derived from the kernel package by string
substitution (builder.go lines 327-332). -/
def headersPkgName (kernelPkg : String) : String :=
  if "linux-image-".isPrefixOf kernelPkg then
    "linux-headers-" ++ dropPre "linux-image-" kernelPkg
  else if "linux-".isPrefixOf kernelPkg then
    "linux-headers-" ++ dropPre "linux-" kernelPkg
  else ""

/-- The kernel-plus-headers install command (builder.go lines 334-337). -/
def kernelCmd (b : Builder) : String :=
  let base := "DEBIAN_FRONTEND=noninteractive apt-get install -y --no-install-recommends "
    ++ kernelPkgName b
  let headers := headersPkgName (kernelPkgName b)
  if headers != "" then base ++ " " ++ headers else base

/-- The additional-package install command (builder.go lines 345-346). -/
def additionalCmd (b : Builder) : String :=
  "DEBIAN_FRONTEND=noninteractive apt-get install -y "
    ++ String.intercalate " " b.config.additional

/-- Warning logged when additional packages fail (builder.go line 347). -/
def additionalWarn : String :=
  "Warning: Some additional packages failed to install"

/-- Model of `installPackages` (builder.go lines 302-352): result,
chroot command trace, and logged warnings.  An error value carries the
failing command; the `%v` cause appended by Go comes from the OS. -/
def installPackages (b : Builder) (env : AptEnv) :
    (Except String Unit) × List String × List String :=
  if !env.distUpgradeOk then (.error upgradeCmd, [upgradeCmd], [])
  else if !env.essentialOk then
    (.error (essentialCmd b), [upgradeCmd, essentialCmd b], [])
  else if !env.kernelOk then
    (.error (kernelCmd b), [upgradeCmd, essentialCmd b, kernelCmd b], [])
  else if b.config.additional.length > 0 then
    if !env.additionalOk then
      (.ok (), [upgradeCmd, essentialCmd b, kernelCmd b, additionalCmd b], [additionalWarn])
    else
      (.ok (), [upgradeCmd, essentialCmd b, kernelCmd b, additionalCmd b], [])
  else (.ok (), [upgradeCmd, essentialCmd b, kernelCmd b], [])

/-- C4.  Fatality policy of the package phase: a dist-upgrade, essential
or kernel-plus-headers failure aborts the phase with that command's
error, while an additional-package failure leaves the phase successful
and only logs the warning. -/
theorem installPackages_fatality_policy (b : Builder) (env : AptEnv) :
    (env.distUpgradeOk = false →
      (installPackages b env).1 = .error upgradeCmd) ∧
    (env.distUpgradeOk = true → env.essentialOk = false →
      (installPackages b env).1 = .error (essentialCmd b)) ∧
    (env.distUpgradeOk = true → env.essentialOk = true → env.kernelOk = false →
      (installPackages b env).1 = .error (kernelCmd b)) ∧
    (env.distUpgradeOk = true → env.essentialOk = true → env.kernelOk = true →
      (installPackages b env).1 = .ok () ∧
      (0 < b.config.additional.length → env.additionalOk = false →
        (installPackages b env).2.2 = [additionalWarn])) := by
  refine ⟨?_, ?_, ?_, ?_⟩
  · intro h1
    simp [installPackages, h1]
  · intro h1 h2
    simp [installPackages, h1, h2]
  · intro h1 h2 h3
    simp [installPackages, h1, h2, h3]
  · intro h1 h2 h3
    constructor
    · by_cases hlen : b.config.additional.length > 0
      · cases h4 : env.additionalOk <;>
          simp [installPackages, h1, h2, h3, h4, hlen]
      · simp [installPackages, h1, h2, h3, hlen]
    · intro hlen h4
      simp [installPackages, h1, h2, h3, h4, hlen]

/-- C4 witness: the four policy conjuncts applied at concrete outcome
environments over a builder with one additional package. -/
theorem installPackages_fatality_policy_witness :
    ((installPackages ⟨⟨"ubuntu", "noble", "amd64", "", "", ["sudo"], ["vim"], false, true, true⟩,
        "/w", "/o.iso", "/w/chroot", "/w/image", "", ""⟩ ⟨false, true, true, true⟩).1
      = .error upgradeCmd) ∧
    ((installPackages ⟨⟨"ubuntu", "noble", "amd64", "", "", ["sudo"], ["vim"], false, true, true⟩,
        "/w", "/o.iso", "/w/chroot", "/w/image", "", ""⟩ ⟨true, true, true, false⟩).1
      = .ok ()) ∧
    ((installPackages ⟨⟨"ubuntu", "noble", "amd64", "", "", ["sudo"], ["vim"], false, true, true⟩,
        "/w", "/o.iso", "/w/chroot", "/w/image", "", ""⟩ ⟨true, true, true, false⟩).2.2
      = [additionalWarn]) :=
  ⟨(installPackages_fatality_policy _ _).1 rfl,
   ((installPackages_fatality_policy _ _).2.2.2 rfl rfl rfl).1,
   ((installPackages_fatality_policy _ _).2.2.2 rfl rfl rfl).2 (by decide) rfl⟩

/-! ## Snapd suppression phase (`blockSnapd`, builder.go lines 355-494)

When either blocking flag is set, the phase runs a fixed list of 22
chroot scripts; each failure is logged as a warning and the loop always
continues, and the phase unconditionally returns nil.  The scripts are
transcribed below (heredoc bodies inline, with newlines escaped). -/

/-- The 22 suppression scripts of `blockSnapd`, in source order
(builder.go lines 362-484). -/
def snapdBlockScripts : List String :=
  ["apt-get purge -y snapd snap-confine ubuntu-core-launcher snapd-xdg-open || true",
   "apt-get autoremove -y || true",
   "rm -rf /var/cache/snapd /var/lib/snapd /var/snap /snap",
   "cat > /etc/apt/preferences.d/nosnapd.pref <<'EOF'\n# Snapd is permanently blocked on this system\nExplanation: Snapd is permanently blocked on this system to prevent unwanted installation.\nPackage: snapd\nPin: release *\nPin-Priority: -1\n\nPackage: snapd:*\nPin: release *\nPin-Priority: -1\n\nPackage: snapd-unwrapped\nPin: release *\nPin-Priority: -1\n\nPackage: snap-confine\nPin: release *\nPin-Priority: -1\n\nPackage: ubuntu-core-launcher\nPin: release *\nPin-Priority: -1\n\nPackage: snapd-xdg-open\nPin: release *\nPin-Priority: -1\nEOF",
   "mkdir -p /etc/systemd/system/snapd.service.d",
   "cat > /etc/systemd/system/snapd.service.d/override.conf <<'EOF'\n[Unit]\n# Snapd is permanently disabled on this system\nConditionPathExists=!/etc/snapd-blocked\n\n[Service]\nExecStart=\nExecStart=/bin/false\nEOF",
   "touch /etc/snapd-blocked",
   "echo \"Snapd is permanently blocked on this system\" > /etc/snapd-blocked",
   "mkdir -p /etc/systemd/system/snapd.socket.d",
   "cat > /etc/systemd/system/snapd.socket.d/override.conf <<'EOF'\n[Unit]\nConditionPathExists=!/etc/snapd-blocked\n\n[Socket]\nListenStream=\nEOF",
   "mkdir -p /etc/apt/apt.conf.d",
   "cat > /etc/apt/apt.conf.d/99-block-snapd <<'EOF'\n// Block snapd package installation\nDPkg::Pre-Install-Pkgs \x7b\n  \"/usr/local/bin/block-snapd-hook\";\n\x7d;\nEOF",
   "cat > /usr/local/bin/block-snapd-hook <<'EOFSCRIPT'\n#!/bin/bash\n# Hook to prevent snapd installation\n\nwhile read pkg; do\n    if [[ \"$pkg\" == *\"snapd\"* ]]; then\n        echo \"====================\x3d====================\x3d================\" >&2\n        echo \"ERROR: Installation of snapd is BLOCKED on this system!\" >&2\n        echo \"This distribution is configured to never use snapd.\" >&2\n        echo \"====================\x3d====================\x3d================\" >&2\n        exit 1\n    fi\ndone\nEOFSCRIPT",
   "chmod +x /usr/local/bin/block-snapd-hook",
   "mkdir -p /etc/update-motd.d",
   "cat > /etc/update-motd.d/99-snapd-blocked <<'EOF'\n#!/bin/sh\necho \"\"\necho \"-----------------------------------------------------------\"\necho \"  WARNING: Snapd is permanently blocked on this system     \"\necho \"  Snap packages cannot be installed or used                \"\necho \"-----------------------------------------------------------\"\necho \"\"\nEOF",
   "chmod +x /etc/update-motd.d/99-snapd-blocked",
   "dpkg-divert --local --rename --add /usr/bin/snap || true",
   "ln -sf /bin/false /usr/bin/snap || true",
   "rm -rf /snap /var/snap /var/lib/snapd ~/snap || true",
   "cat >> /etc/profile.d/block-snapd.sh <<'EOF'\n# Snapd is blocked on this system\nexport SNAPD_BLOCKED=1\n\n# Override snap command\nsnap() \x7b\n    echo \"ERROR: Snapd is permanently blocked on this system\" >&2\n    return 1\n\x7d\nEOF",
   "chmod +x /etc/profile.d/block-snapd.sh"]

/-- Guard of the phase (builder.go lines 356-358): blocking is enabled
when either configuration flag is set. -/
def snapdBlockEnabled (b : Builder) : Bool :=
  b.config.blockSnapdForever || b.config.blockSnapd

/-- Warning text logged for one failed suppression script (builder.go
line 488); the wrapped cause comes from the OS. -/
def snapdWarnFor (s : String) : String :=
  "Warning during snapd blocking: " ++ s

/-- Model of the `for _, script := range scripts` loop of `blockSnapd`
(builder.go lines 486-490): every script is executed whatever the
earlier outcomes; a failure only appends its warning.  Returns
(scripts executed, warnings logged). -/
def runSnapdScripts (ok : String → Bool) : List String → List String × List String
  | [] => ([], [])
  | s :: rest =>
    let r := runSnapdScripts ok rest
    (s :: r.1, (if ok s then [] else [snapdWarnFor s]) ++ r.2)

/-- Model of `blockSnapd` (builder.go lines 355-494): result, executed
scripts, warnings. -/
def blockSnapd (b : Builder) (ok : String → Bool) :
    (Except String Unit) × List String × List String :=
  if !snapdBlockEnabled b then (.ok (), [], [])
  else
    let r := runSnapdScripts ok snapdBlockScripts
    (.ok (), r.1, r.2)

/-- Closed form of the best-effort loop: every script runs, and the
warnings are exactly the failures in order. -/
theorem runSnapdScripts_spec (ok : String → Bool) (l : List String) :
    runSnapdScripts ok l = (l, (l.filter fun s => !ok s).map snapdWarnFor) := by
  induction l with
  | nil => rfl
  | cons s rest ih =>
    simp only [runSnapdScripts, ih]
    cases h : ok s <;> simp [List.filter_cons, h]

/-- C7.  Best-effort snapd suppression: with blocking enabled the phase
always returns success, every one of the 22 suppression scripts is
executed regardless of the outcomes of the earlier ones, each failing
script contributes its logged warning, and nothing else is logged — so a
partial failure neither aborts the build nor prevents the remaining
mechanisms from running. -/
theorem blockSnapd_best_effort (b : Builder) (ok : String → Bool)
    (hen : snapdBlockEnabled b = true) :
    (blockSnapd b ok).1 = .ok () ∧
    (blockSnapd b ok).2.1 = snapdBlockScripts ∧
    (blockSnapd b ok).2.2 =
      (snapdBlockScripts.filter fun s => !ok s).map snapdWarnFor ∧
    (∀ s ∈ snapdBlockScripts, ok s = false →
      snapdWarnFor s ∈ (blockSnapd b ok).2.2) := by
  have hb : blockSnapd b ok =
      (.ok (), snapdBlockScripts,
       (snapdBlockScripts.filter fun s => !ok s).map snapdWarnFor) := by
    unfold blockSnapd
    rw [hen]
    simp [runSnapdScripts_spec]
  refine ⟨by rw [hb], by rw [hb], by rw [hb], ?_⟩
  intro s hs hfail
  rw [hb]
  simp only
  exact List.mem_map_of_mem _ (List.mem_filter.2 ⟨hs, by simp [hfail]⟩)

/-- C7 witness: the theorem applied with blocking enabled and an
environment in which the systemd-override write (script 6) fails while
everything else succeeds: the phase still succeeds and still runs all 22
scripts. -/
theorem blockSnapd_best_effort_witness :
    (blockSnapd ⟨⟨"ubuntu", "noble", "amd64", "", "", [], [], false, true, true⟩,
        "/w", "/o.iso", "/w/chroot", "/w/image", "", ""⟩
      (fun s => !(goContains s "snapd.service.d/override.conf"))).1 = .ok () ∧
    (blockSnapd ⟨⟨"ubuntu", "noble", "amd64", "", "", [], [], false, true, true⟩,
        "/w", "/o.iso", "/w/chroot", "/w/image", "", ""⟩
      (fun s => !(goContains s "snapd.service.d/override.conf"))).2.1 = snapdBlockScripts :=
  ⟨(blockSnapd_best_effort
      ⟨⟨"ubuntu", "noble", "amd64", "", "", [], [], false, true, true⟩,
        "/w", "/o.iso", "/w/chroot", "/w/image", "", ""⟩
      (fun s => !(goContains s "snapd.service.d/override.conf")) rfl).1,
   (blockSnapd_best_effort
      ⟨⟨"ubuntu", "noble", "amd64", "", "", [], [], false, true, true⟩,
        "/w", "/o.iso", "/w/chroot", "/w/image", "", ""⟩
      (fun s => !(goContains s "snapd.service.d/override.conf")) rfl).2.1⟩

/-! ## Debian alias resolution (`resolveDebianRelease`, builder.go lines
1147-1204)

For a Debian config whose lower-cased release is "stable", "testing" or
"unstable", the function fetches `<mirror>dists/<alias>/Release` with
wget, parses Codename/Label/Version lines, and replaces `Config.Release`
by the parsed codename when that is non-empty; on any failure (fetch
error or no codename) the alias is kept and the function returns
normally — it has no error result at all, so the build continues either
way.  The model additionally returns the list of URLs fetched. -/

/-- Model of Go `strings.Split(s, "\n")` on `String`. -/
def goLines (s : String) : List String :=
  (splitNl s.data).map fun cs => String.mk cs

/-- Model of Go `strings.HasPrefix`. -/
def goHasPre (pre s : String) : Bool :=
  hasPre pre.data s.data

/-- Split a character list at its first colon. -/
def breakAtColon : List Char → Option (List Char × List Char)
  | [] => none
  | c :: rest =>
    if c = ':' then some ([], rest)
    else
      match breakAtColon rest with
      | none => none
      | some (a, b) => some (c :: a, b)

/-- Model of Go `strings.SplitN(s, ":", 2)`. -/
def splitN2Colon (s : String) : List String :=
  match breakAtColon s.data with
  | none => [s]
  | some (a, b) => [String.mk a, String.mk b]

/-- Model of Go `strings.TrimSpace`. -/
def goTrim (s : String) : String :=
  String.mk (((s.data.dropWhile isSpaceChar).reverse.dropWhile isSpaceChar).reverse)

/-- Scan of the fetched Release file (builder.go lines 1174-1193):
returns (label, version, codename), each taken from the last matching
line. -/
def parseReleaseInfo (output : String) : String × String × String :=
  (goLines output).foldl
    (fun acc line =>
      if goHasPre "Codename:" line then
        match goFields line with
        | _ :: c :: _ => (acc.1, acc.2.1, c)
        | _ => acc
      else if goHasPre "Label:" line then
        match splitN2Colon line with
        | [_, v] => (goTrim v, acc.2.1, acc.2.2)
        | _ => acc
      else if goHasPre "Version:" line then
        match splitN2Colon line with
        | [_, v] => (acc.1, goTrim v, acc.2.2)
        | _ => acc
      else acc)
    ("", "", "")

/-- Network oracle: `wget -qO- url` returning the body on success. -/
structure NetEnv where
  wget : String → Option String

/-- Default Debian mirror (builder.go line 1162). -/
def debianDefaultMirror : String :=
  "http://deb.debian.org/debian/"

/-- URL of the alias Release file (builder.go line 1166). -/
def releaseUrl (mirror aliasStr : String) : String :=
  mirror ++ "dists/" ++ aliasStr ++ "/Release"

/-- The URL `resolveDebianRelease` queries for a builder. -/
def resolveUrl (b : Builder) : String :=
  releaseUrl (if b.config.mirror == "" then debianDefaultMirror else b.config.mirror)
    (goToLower b.config.release)

/-- Core of `resolveDebianRelease` (builder.go lines 1157-1203), entered
once the alias guard has passed: record the alias, fetch the Release
file, and replace the release by the parsed codename when that is
non-empty. -/
def resolveCore (b : Builder) (aliasRel : String) (net : NetEnv) : Builder × List String :=
  let b1 := { b with debianAlias := aliasRel }
  let mirror := if b.config.mirror == "" then debianDefaultMirror else b.config.mirror
  let url := releaseUrl mirror aliasRel
  match net.wget url with
  | none => (b1, [url])
  | some output =>
    let info := parseReleaseInfo output
    let label := info.1
    let version := info.2.1
    let codename := info.2.2
    if codename != "" then
      ({ b1 with
          config := { b1.config with release := codename },
          prettyName :=
            if label != "" && version != "" then label ++ " " ++ version
            else if label != "" then label ++ " " ++ goTitle aliasRel
            else b1.prettyName },
       [url])
    else (b1, [url])

/-- Model of `resolveDebianRelease` (builder.go lines 1147-1204):
returns the updated builder and the list of URLs fetched. -/
def resolveDebianRelease (b : Builder) (net : NetEnv) : Builder × List String :=
  if !isDebian b then (b, [])
  else
    let aliasRel := goToLower b.config.release
    if !(aliasRel == "stable" || aliasRel == "testing" || aliasRel == "unstable") then (b, [])
    else resolveCore b aliasRel net

/-- Concrete Debian builder with release alias "stable". -/
def stableAliasBuilder : Builder :=
  ⟨⟨"debian", "stable", "amd64", "", "", [], [], false, false, false⟩,
   "/w", "/o.iso", "/w/chroot", "/w/image", "", ""⟩

/-- Network oracle whose Release file names the codename "stable". -/
def stableAliasNet : NetEnv :=
  ⟨fun _ => some "Codename: stable\n"⟩

/-- C8 counterexample.  The claim asserts that whenever network
resolution succeeds, the resolved codename is distinct from the alias.
The code never checks distinctness: against a mirror whose Release file
carries "Codename: stable", resolution succeeds (the fetch returns a
body and the parsed codename is non-empty), yet the resolved codename
equals the alias "stable" — `Config.Release` is replaced by the very
alias string again. -/
theorem resolve_alias_not_distinct_cex :
    stableAliasNet.wget (resolveUrl stableAliasBuilder) = some "Codename: stable\n" ∧
    (parseReleaseInfo "Codename: stable\n").2.2 = "stable" ∧
    (resolveDebianRelease stableAliasBuilder stableAliasNet).1.config.release = "stable" ∧
    ¬((parseReleaseInfo "Codename: stable\n").2.2 ≠ stableAliasBuilder.config.release) := by
  refine ⟨rfl, by decide, by decide, ?_⟩
  intro h
  exact h (by decide)

/-- C8 (amended).  For a Debian builder whose release is the alias
"stable", "testing" or "unstable": exactly the alias Release file of the
(defaulted) mirror is fetched; `DebianAlias` records the alias; when the
fetch fails `Config.Release` keeps the alias verbatim (and the function
has no failure result, so the build proceeds); when the fetch succeeds
the parsed codename replaces `Config.Release` exactly when it is
non-empty — with no check that it differs from the alias — and otherwise
the alias is kept. -/
theorem resolveDebianRelease_fallback (b : Builder) (net : NetEnv)
    (hdeb : b.config.distro = "debian")
    (halias : b.config.release = "stable" ∨ b.config.release = "testing" ∨
      b.config.release = "unstable") :
    (resolveDebianRelease b net).2 = [resolveUrl b] ∧
    (resolveDebianRelease b net).1.debianAlias = b.config.release ∧
    (net.wget (resolveUrl b) = none →
      (resolveDebianRelease b net).1.config.release = b.config.release) ∧
    (∀ out, net.wget (resolveUrl b) = some out →
      ((parseReleaseInfo out).2.2 ≠ "" →
        (resolveDebianRelease b net).1.config.release = (parseReleaseInfo out).2.2) ∧
      ((parseReleaseInfo out).2.2 = "" →
        (resolveDebianRelease b net).1.config.release = b.config.release)) := by
  have hlow : goToLower b.config.release = b.config.release := by
    rcases halias with h | h | h <;> rw [h] <;> rfl
  have hmem : (b.config.release == "stable" || b.config.release == "testing" ||
      b.config.release == "unstable") = true := by
    rcases halias with h | h | h <;> rw [h] <;> rfl
  have hwrap : resolveDebianRelease b net = resolveCore b b.config.release net := by
    unfold resolveDebianRelease
    rw [hlow]
    simp [isDebian, hdeb, hmem]
  have hurl : releaseUrl (if b.config.mirror == "" then debianDefaultMirror
      else b.config.mirror) b.config.release = resolveUrl b := by
    rw [resolveUrl, hlow]
  rw [hwrap]
  unfold resolveCore
  simp only [hurl]
  cases net.wget (resolveUrl b) with
  | none =>
    exact ⟨rfl, rfl, fun _ => rfl, fun out hout => Option.noConfusion hout⟩
  | some out =>
    by_cases hcn : (parseReleaseInfo out).2.2 = ""
    · have hne : ((parseReleaseInfo out).2.2 != "") = false := by
        simp [hcn]
      simp only [hne, Bool.false_eq_true, if_false]
      refine ⟨trivial, trivial, fun _ => trivial, ?_⟩
      intro out2 hout2
      have heq : out = out2 := by injection hout2
      subst heq
      exact ⟨fun hne2 => absurd hcn hne2, fun _ => trivial⟩
    · have hne : ((parseReleaseInfo out).2.2 != "") = true := by
        simp [bne_iff_ne, hcn]
      simp only [hne, if_true]
      refine ⟨trivial, trivial, fun h => Option.noConfusion h, ?_⟩
      intro out2 hout2
      have heq : out = out2 := by injection hout2
      subst heq
      exact ⟨fun _ => rfl, fun h0 => absurd h0 hcn⟩

/-- Concrete offline Debian builder with release alias "testing". -/
def offlineTestingBuilder : Builder :=
  ⟨⟨"debian", "testing", "amd64", "", "", [], [], false, false, false⟩,
   "/w", "/o.iso", "/w/chroot", "/w/image", "", ""⟩

/-- C8 witness: the amended theorem applied at a concrete offline
environment — resolution fails and the alias "testing" is retained
verbatim. -/
theorem resolveDebianRelease_fallback_witness :
    (resolveDebianRelease offlineTestingBuilder ⟨fun _ => none⟩).1.config.release = "testing" :=
  (resolveDebianRelease_fallback offlineTestingBuilder ⟨fun _ => none⟩ rfl
      (Or.inr (Or.inl rfl))).2.2.1 rfl

/-! ## Manifest filtering (`createFilesystem`, helpers.go lines 14-67)

`createFilesystem` writes the dpkg-query output as
`filesystem.manifest`, then, for each package fragment of the
distribution's removal list, splits the running content on newlines,
drops every line containing the fragment as a substring, and re-joins
with newlines; the final content becomes
`filesystem.manifest-desktop`.  The filtering is modelled on the
character data of the manifest. -/

/-- Lines kept after removing one package fragment (helpers.go lines
55-61): the Go append-loop is a filter. -/
def filterPkg (p : List Char) (lines : List (List Char)) : List (List Char) :=
  lines.filter fun l => !occursIn p l

/-- One iteration of the removal loop (helpers.go lines 54-63): split on
newlines, filter, re-join. -/
def stripStep (content : List Char) (p : List Char) : List Char :=
  joinNl (filterPkg p (splitNl content))

/-- The whole removal loop over the package list, threading the running
manifest content exactly as the Go code does. -/
def stripManifest : List (List Char) → List Char → List Char
  | [], content => content
  | p :: ps, content => stripManifest ps (stripStep content p)

/-- Line-list view of the removal loop: iterated filtering. -/
def stripLines : List (List Char) → List (List Char) → List (List Char)
  | [], lines => lines
  | p :: ps, lines => stripLines ps (filterPkg p lines)

/-- Debian removal list (helpers.go lines 32-41). -/
def liveRemovePackagesDebian : List String :=
  ["calamares", "live-boot", "live-boot-initramfs-tools", "live-config",
   "live-config-systemd", "discover", "laptop-detect", "os-prober"]

/-- Ubuntu removal list (helpers.go lines 43-50). -/
def liveRemovePackagesUbuntu : List String :=
  ["ubiquity", "calamares", "casper", "discover", "laptop-detect", "os-prober"]

/-- Removal list selected by `isDebian` (helpers.go lines 31-51). -/
def removeListFor (isDeb : Bool) : List String :=
  if isDeb then liveRemovePackagesDebian else liveRemovePackagesUbuntu

/-- Content of `filesystem.manifest-desktop` as a function of the full
manifest content (helpers.go lines 53-65). -/
def manifestDesktopContent (isDeb : Bool) (output : List Char) : List Char :=
  stripManifest ((removeListFor isDeb).map String.data) output

theorem splitNl_ne_nil (l : List Char) : splitNl l ≠ [] := by
  induction l with
  | nil => simp [splitNl]
  | cons c rest ih =>
    by_cases h : c = '\n'
    · simp [splitNl, h]
    · simp only [splitNl, if_neg h]
      cases hs : splitNl rest with
      | nil => simp
      | cons a t => simp

/-- Pieces produced by the newline split are newline-free. -/
theorem nl_not_mem_of_mem_splitNl : ∀ (l p : List Char), p ∈ splitNl l → '\n' ∉ p := by
  intro l
  induction l with
  | nil =>
    intro p hp
    simp only [splitNl, List.mem_singleton] at hp
    subst hp
    simp
  | cons c rest ih =>
    intro p hp
    simp only [splitNl] at hp
    by_cases h : c = '\n'
    · rw [if_pos h] at hp
      rcases List.mem_cons.1 hp with h0 | h0
      · subst h0; simp
      · exact ih p h0
    · rw [if_neg h] at hp
      cases hs : splitNl rest with
      | nil => exact absurd hs (splitNl_ne_nil rest)
      | cons a t =>
        rw [hs] at hp
        rcases List.mem_cons.1 hp with h0 | h0
        · subst h0
          intro hmem
          rcases List.mem_cons.1 hmem with h1 | h1
          · exact h h1.symm
          · exact ih a (by rw [hs]; exact List.mem_cons_self a t) h1
        · exact ih p (by rw [hs]; exact List.mem_cons_of_mem a h0)

/-- A newline-free list splits into itself. -/
theorem splitNl_no_nl : ∀ (l : List Char), '\n' ∉ l → splitNl l = [l] := by
  intro l
  induction l with
  | nil => intro _; rfl
  | cons c rest ih =>
    intro h
    have hc : ¬(c = '\n') := fun hh => h (by rw [hh]; exact List.mem_cons_self _ _)
    have hr : '\n' ∉ rest := fun hh => h (List.mem_cons_of_mem _ hh)
    simp only [splitNl, if_neg hc, ih hr]

/-- Splitting after a newline-free head peels off that head. -/
theorem splitNl_append_nl : ∀ (a t : List Char), '\n' ∉ a →
    splitNl (a ++ '\n' :: t) = a :: splitNl t := by
  intro a
  induction a with
  | nil =>
    intro t _
    simp [splitNl]
  | cons c a2 ih =>
    intro t h
    have hc : ¬(c = '\n') := fun hh => h (by rw [hh]; exact List.mem_cons_self _ _)
    have ha : '\n' ∉ a2 := fun hh => h (List.mem_cons_of_mem _ hh)
    have hrec := ih t ha
    rw [show a2 ++ '\n' :: t = a2.append ('\n' :: t) from rfl] at hrec
    simp only [List.cons_append, splitNl, if_neg hc]
    rw [hrec]

/-- Round trip: splitting a join of non-empty, newline-free pieces
recovers the pieces. -/
theorem splitNl_joinNl : ∀ (L : List (List Char)), L ≠ [] →
    (∀ p ∈ L, '\n' ∉ p) → splitNl (joinNl L) = L := by
  intro L
  induction L with
  | nil => intro h _; exact absurd rfl h
  | cons a L2 ih =>
    intro _ hnl
    cases L2 with
    | nil => exact splitNl_no_nl a (hnl a (List.mem_cons_self _ _))
    | cons b L3 =>
      have hj : joinNl (a :: b :: L3) = a ++ '\n' :: joinNl (b :: L3) := rfl
      rw [hj, splitNl_append_nl a _ (hnl a (List.mem_cons_self _ _)),
        ih (by simp) (fun p hp => hnl p (List.mem_cons_of_mem _ hp))]

/-- A non-empty fragment does not occur in the empty line. -/
theorem occursIn_nil (p : List Char) (h : p ≠ []) : occursIn p [] = false := by
  cases p with
  | nil => exact absurd rfl h
  | cons x xs => rfl

/-- Iterated filtering yields a sublist of the original lines. -/
theorem stripLines_sublist (pkgs : List (List Char)) (lines : List (List Char)) :
    (stripLines pkgs lines).Sublist lines := by
  induction pkgs generalizing lines with
  | nil => exact List.Sublist.refl _
  | cons p ps ih =>
    exact (ih (filterPkg p lines)).trans (List.filter_sublist _)

/-- No surviving line contains any of the filtered fragments. -/
theorem stripLines_no_occurs (pkgs : List (List Char)) (lines : List (List Char)) :
    ∀ p ∈ pkgs, ∀ l ∈ stripLines pkgs lines, occursIn p l = false := by
  induction pkgs generalizing lines with
  | nil => intro p hp; exact absurd hp (List.not_mem_nil p)
  | cons q ps ih =>
    intro p hp l hl
    rcases List.mem_cons.1 hp with h | h
    · subst h
      have hsub := stripLines_sublist ps (filterPkg p lines)
      have hl2 : l ∈ filterPkg p lines := hsub.subset hl
      have hkeep := List.mem_filter.1 hl2
      simpa using hkeep.2
    · exact ih (filterPkg q lines) p h l hl

/-- One strip iteration at the line level: splitting the re-joined
content gives exactly the filtered lines, provided the content had an
empty line (dpkg output ends in a newline) and the fragment is
non-empty. -/
theorem splitNl_stripStep (c p : List Char) (hp : p ≠ []) (hmem : [] ∈ splitNl c) :
    splitNl (stripStep c p) = filterPkg p (splitNl c) := by
  have hmemf : [] ∈ filterPkg p (splitNl c) :=
    List.mem_filter.2 ⟨hmem, by simp [occursIn_nil p hp]⟩
  have hne : filterPkg p (splitNl c) ≠ [] := by
    intro h
    rw [h] at hmemf
    exact (List.not_mem_nil _) hmemf
  have hnl : ∀ q ∈ filterPkg p (splitNl c), '\n' ∉ q := fun q hq =>
    nl_not_mem_of_mem_splitNl c q ((List.filter_sublist _).subset hq)
  exact splitNl_joinNl _ hne hnl

/-- The whole loop at the line level. -/
theorem splitNl_stripManifest : ∀ (pkgs : List (List Char)) (c : List Char),
    (∀ p ∈ pkgs, p ≠ []) → [] ∈ splitNl c →
    splitNl (stripManifest pkgs c) = stripLines pkgs (splitNl c) := by
  intro pkgs
  induction pkgs with
  | nil => intro c _ _; rfl
  | cons p ps ih =>
    intro c hp hmem
    have hp1 : p ≠ [] := hp p (List.mem_cons_self _ _)
    have hstep := splitNl_stripStep c p hp1 hmem
    have hmem2 : [] ∈ splitNl (stripStep c p) := by
      rw [hstep]
      exact List.mem_filter.2 ⟨hmem, by simp [occursIn_nil p hp1]⟩
    show splitNl (stripManifest ps (stripStep c p)) = stripLines ps (filterPkg p (splitNl c))
    rw [ih (stripStep c p) (fun q hq => hp q (List.mem_cons_of_mem _ hq)) hmem2, hstep]

/-- C5.  Manifest filtering soundness, for both distribution removal
lists: whenever the full manifest content ends in a newline (dpkg-query
emits one record per line, each newline-terminated, so the newline split
contains an empty final piece), the lines of the installer-stripped
manifest are a sublist — in particular a subset — of the lines of the
full manifest, and no stripped-manifest line contains any fragment of
the configured removal list as a substring. -/
theorem manifest_filter_sound (isDeb : Bool) (output : List Char)
    (hnl : [] ∈ splitNl output) :
    (splitNl (manifestDesktopContent isDeb output)).Sublist (splitNl output) ∧
    ∀ p ∈ removeListFor isDeb, ∀ l ∈ splitNl (manifestDesktopContent isDeb output),
      occursIn p.data l = false := by
  have hp : ∀ q ∈ (removeListFor isDeb).map String.data, q ≠ [] := by
    cases isDeb <;> decide
  have hsplit := splitNl_stripManifest ((removeListFor isDeb).map String.data) output hp hnl
  constructor
  · rw [manifestDesktopContent, hsplit]
    exact stripLines_sublist _ _
  · intro p hp2 l hl
    rw [manifestDesktopContent, hsplit] at hl
    exact stripLines_no_occurs _ _ p.data (List.mem_map_of_mem _ hp2) l hl

/-- C5 witness: the theorem applied to a concrete three-line Ubuntu
manifest whose trailing newline discharges the hypothesis; furthermore
the filtered result is computed explicitly — the ubiquity and casper
lines are gone, and no remaining line contains a removal fragment. -/
theorem manifest_filter_sound_witness :
    ([] ∈ splitNl "bash 5.2\nubiquity 24.04\ncasper 1.0\n".data) ∧
    (splitNl (manifestDesktopContent false "bash 5.2\nubiquity 24.04\ncasper 1.0\n".data)).Sublist
      (splitNl "bash 5.2\nubiquity 24.04\ncasper 1.0\n".data) ∧
    manifestDesktopContent false "bash 5.2\nubiquity 24.04\ncasper 1.0\n".data
      = "bash 5.2\n".data :=
  ⟨by decide,
   (manifest_filter_sound false "bash 5.2\nubiquity 24.04\ncasper 1.0\n".data (by decide)).1,
   by decide⟩

/-! ## ISO synthesis (`createISO`, helpers.go lines 130-347)

The EFI-loader discovery walks fixed path lists, each tried on the host
and then under the chroot (helpers.go lines 138-154); only the primary
GRUB loader is mandatory: if its list and the `find` fallback both come
up empty the function returns an error before any image-synthesis
command runs.  The environment carries file existence, per-path cp
outcomes, the `find` output, and the success of each later external
command.  The command trace records the image-synthesis commands, so
"no ISO is produced" is the absence of `xorriso` from the trace. -/

/-- External facts consumed by `createISO`. -/
structure IsoEnv where
  fileExists : String → Bool
  cpOk : String → Bool
  findGrubOutput : String
  ddOk : Bool
  mkfsOk : Bool
  grubMkOk : Bool
  catOk : Bool
  md5CreateOk : Bool
  xorrisoOk : Bool

/-- Candidate shim locations (helpers.go lines 158-164). -/
def shimPaths : List String :=
  ["/usr/lib/shim/shimx64.efi.signed",
   "/usr/lib/shim/shimx64.efi.signed.previous",
   "/usr/lib/shim/shimx64.efi",
   "/boot/efi/EFI/ubuntu/shimx64.efi",
   "/usr/lib/shim/shim.efi"]

/-- Candidate MokManager locations (helpers.go lines 169-173). -/
def mmPaths : List String :=
  ["/usr/lib/shim/mmx64.efi",
   "/usr/lib/shim/mmx64.efi.signed",
   "/boot/efi/EFI/ubuntu/mmx64.efi"]

/-- Candidate GRUB EFI loader locations (helpers.go lines 176-181). -/
def grubEfiPaths : List String :=
  ["/usr/lib/grub/x86_64-efi-signed/grubx64.efi.signed",
   "/usr/lib/grub/x86_64-efi/monolithic/grubx64.efi",
   "/boot/efi/EFI/ubuntu/grubx64.efi",
   "/usr/lib/grub/x86_64-efi/grub.efi"]

/-- Model of the `copyFile` closure (helpers.go lines 138-154): walk the
candidate list; a path counts when it exists (on the host, or prefixed
by the chroot directory) and its copy succeeds; otherwise fall through
to the next candidate. -/
def copyFileSearch (env : IsoEnv) (chrootDir : String) (srcPaths : List String) : Bool :=
  srcPaths.any fun p =>
    (env.fileExists p && env.cpOk p) ||
    (env.fileExists (chrootDir ++ p) && env.cpOk (chrootDir ++ p))

/-- Warning for a missing shim (helpers.go line 166). -/
def shimWarning : String :=
  "[WARNING] shimx64.efi not located; UEFI Secure Boot may be unavailable"

/-- Warning preceding the find fallback (helpers.go line 183). -/
def grubSearchWarning : String :=
  "[WARNING] grubx64.efi not found in standard locations; initiating search..."

/-- Error of a totally missing GRUB EFI loader (helpers.go line 190). -/
def grubMissingMsg : String :=
  "mandatory EFI loader grubx64.efi could not be located"

/-- First path of the trimmed `find` output (helpers.go lines 184-187):
`strings.Split(strings.TrimSpace(output), "\n")[0]`. -/
def findFirstFound (env : IsoEnv) : String :=
  match goLines (goTrim env.findGrubOutput) with
  | [] => ""
  | f :: _ => f

/-- Model of `createISO` (helpers.go lines 130-347): result, trace of
image-synthesis commands, and warnings.  The mmd/mcopy/md5 pipelines
whose errors the source discards appear in the trace but cannot fail;
an error value names the failing command (the wrapped cause text comes
from the OS). -/
def createISO (b : Builder) (env : IsoEnv) :
    (Except String Unit) × List String × List String :=
  let bootOk := copyFileSearch env b.chrootDir shimPaths
  let w1 : List String := if bootOk then [] else [shimWarning]
  let _mm := copyFileSearch env b.chrootDir mmPaths
  let grubOk := copyFileSearch env b.chrootDir grubEfiPaths
  let w2 : List String := if grubOk then w1 else w1 ++ [grubSearchWarning]
  if !grubOk && findFirstFound env == "" then
    (.error grubMissingMsg, [], w2)
  else if !env.ddOk then (.error "dd", ["dd"], w2)
  else if !env.mkfsOk then (.error "mkfs.vfat", ["dd", "mkfs.vfat"], w2)
  else if !env.grubMkOk then
    (.error "grub-mkstandalone", ["dd", "mkfs.vfat", "mmd", "mcopy", "grub-mkstandalone"], w2)
  else if !env.catOk then
    (.error "cat", ["dd", "mkfs.vfat", "mmd", "mcopy", "grub-mkstandalone", "cat"], w2)
  else if !env.md5CreateOk then
    (.error "md5sum", ["dd", "mkfs.vfat", "mmd", "mcopy", "grub-mkstandalone", "cat"], w2)
  else
    ((if env.xorrisoOk then .ok () else .error "xorriso"),
     ["dd", "mkfs.vfat", "mmd", "mcopy", "grub-mkstandalone", "cat", "md5sum", "xorriso"], w2)

/-- C6.  Mandatory versus optional EFI loaders: (1) when the GRUB EFI
loader is found at none of the known host/chroot locations and the
chroot filesystem search returns nothing, `createISO` fails with the
error naming the missing loader (the message contains "grubx64.efi") and
`xorriso` is never invoked, so no ISO is produced; (2) when the GRUB
loader is found and the synthesis commands succeed, the ISO is produced
even if the shim and MokManager loaders are absent — shim absence merely
logs its warning. -/
theorem createISO_mandatory_grub_loader (b : Builder) (env : IsoEnv) :
    (copyFileSearch env b.chrootDir grubEfiPaths = false → findFirstFound env = "" →
      (createISO b env).1 = .error grubMissingMsg ∧
      goContains grubMissingMsg "grubx64.efi" = true ∧
      "xorriso" ∉ (createISO b env).2.1) ∧
    (copyFileSearch env b.chrootDir grubEfiPaths = true →
      env.ddOk = true → env.mkfsOk = true → env.grubMkOk = true → env.catOk = true →
      env.md5CreateOk = true → env.xorrisoOk = true →
      (createISO b env).1 = .ok () ∧
      (copyFileSearch env b.chrootDir shimPaths = false →
        shimWarning ∈ (createISO b env).2.2)) := by
  constructor
  · intro hg hf
    refine ⟨?_, by decide, ?_⟩ <;> simp [createISO, hg, hf]
  · intro hg hdd hmkfs hgm hcat hmd5 hx
    constructor
    · simp [createISO, hg, hdd, hmkfs, hgm, hcat, hmd5, hx]
    · intro hshim
      simp [createISO, hg, hdd, hmkfs, hgm, hcat, hmd5, hx, hshim]

/-- C6 witness: both conjuncts applied at concrete environments — a bare
host with an empty find result fails before xorriso, and a host carrying
only the signed GRUB loader produces the ISO while warning about the
shim. -/
theorem createISO_mandatory_grub_loader_witness :
    ((createISO ⟨⟨"ubuntu", "noble", "amd64", "", "", [], [], false, true, true⟩,
        "/w", "/o.iso", "/w/chroot", "/w/image", "", ""⟩
        ⟨fun _ => false, fun _ => false, "", true, true, true, true, true, true⟩).1
      = .error grubMissingMsg) ∧
    ((createISO ⟨⟨"ubuntu", "noble", "amd64", "", "", [], [], false, true, true⟩,
        "/w", "/o.iso", "/w/chroot", "/w/image", "", ""⟩
        ⟨fun p => p == "/usr/lib/grub/x86_64-efi-signed/grubx64.efi.signed",
         fun _ => true, "", true, true, true, true, true, true⟩).1
      = .ok ()) :=
  ⟨((createISO_mandatory_grub_loader
      ⟨⟨"ubuntu", "noble", "amd64", "", "", [], [], false, true, true⟩,
        "/w", "/o.iso", "/w/chroot", "/w/image", "", ""⟩
      ⟨fun _ => false, fun _ => false, "", true, true, true, true, true, true⟩).1
        (by decide) rfl).1,
   ((createISO_mandatory_grub_loader
      ⟨⟨"ubuntu", "noble", "amd64", "", "", [], [], false, true, true⟩,
        "/w", "/o.iso", "/w/chroot", "/w/image", "", ""⟩
      ⟨fun p => p == "/usr/lib/grub/x86_64-efi-signed/grubx64.efi.signed",
       fun _ => true, "", true, true, true, true, true, true⟩).2
        (by decide) rfl rfl rfl rfl rfl rfl).1⟩

/-! ## Final cleanup (`cleanup`, helpers.go lines 349-373)

The phase walks five chroot mount points innermost-first; for each one
that is currently mounted it runs `umount -l` up to three times,
sleeping 500 ms after each failure, and ignores persistent failure; the
function ends in an unconditional `return nil`.  The environment carries
the mount table and the per-attempt umount outcomes; the trace records
the umount invocations and the sleeps. -/

/-- The five unmount targets in source order (helpers.go lines 352-358):
`dev/pts` before `dev`, then `proc`, `sys`, `run`, each joined under the
chroot directory. -/
def cleanupMounts (chrootDir : String) : List String :=
  [chrootDir ++ "/dev/pts", chrootDir ++ "/dev", chrootDir ++ "/proc",
   chrootDir ++ "/sys", chrootDir ++ "/run"]

/-- Outcomes of the external umount attempts: `umountOk target i` is the
success of attempt `i` on `target`. -/
structure UmountEnv where
  procMounts : List String
  umountOk : String → Nat → Bool

/-- The lazy-unmount command line (helpers.go line 363). -/
def umountCmd (target : String) : List String :=
  ["umount", "-l", target]

/-- The 500 ms delay between retries (helpers.go line 367), recorded in
the trace. -/
def sleepCmd : List String :=
  ["sleep", "500ms"]

/-- Trace of the three-iteration retry loop (helpers.go lines 362-368),
unrolled: stop after the first success, otherwise sleep and retry, at
most three attempts in all. -/
def umountTries (ok : Nat → Bool) (target : String) : List (List String) :=
  if ok 0 then [umountCmd target]
  else if ok 1 then [umountCmd target, sleepCmd, umountCmd target]
  else if ok 2 then
    [umountCmd target, sleepCmd, umountCmd target, sleepCmd, umountCmd target]
  else
    [umountCmd target, sleepCmd, umountCmd target, sleepCmd, umountCmd target, sleepCmd]

/-- Trace contributed by one target (helpers.go lines 360-370): nothing
at all when the target is not currently mounted. -/
def cleanupTraceFor (env : UmountEnv) (target : String) : List (List String) :=
  if isMounted env.procMounts target then umountTries (env.umountOk target) target
  else []

/-- Model of `cleanup` (helpers.go lines 349-373): the loop over the
five targets followed by the unconditional `return nil`. -/
def cleanup (b : Builder) (env : UmountEnv) :
    (Except String Unit) × List (List String) :=
  (.ok (),
   (cleanupMounts b.chrootDir).foldl (fun tr target => tr ++ cleanupTraceFor env target) [])

/-- The umount command for one target occurs at most three times in that
target's own trace, and never in another target's trace. -/
theorem count_cleanupTraceFor (env : UmountEnv) (target t2 : String) :
    (cleanupTraceFor env t2).count (umountCmd target) ≤ if target = t2 then 3 else 0 := by
  unfold cleanupTraceFor
  cases hm : isMounted env.procMounts t2
  · simp
  · simp only [if_true]
    have hsleep : sleepCmd ≠ umountCmd target := by
      intro h
      have : "sleep" = "umount" := by injection h
      exact absurd this (by decide)
    by_cases he : target = t2
    · subst he
      unfold umountTries
      by_cases h0 : env.umountOk target 0
      · simp [h0, List.count_cons]
      · by_cases h1 : env.umountOk target 1
        · simp [h0, h1, List.count_cons, hsleep]
        · by_cases h2 : env.umountOk target 2 <;>
            simp [h0, h1, h2, List.count_cons, hsleep]
    · have hcmd : umountCmd t2 ≠ umountCmd target := by
        intro h
        apply he
        have h5 : t2 = target := by
          injection h with h1 h2
          injection h2 with h3 h4
          injection h4 with h5 h6
        exact h5.symm
      simp only [if_neg he]
      unfold umountTries
      by_cases h0 : env.umountOk t2 0
      · simp [h0, List.count_cons, hsleep, hcmd]
      · by_cases h1 : env.umountOk t2 1
        · simp [h0, h1, List.count_cons, hsleep, hcmd]
        · by_cases h2 : env.umountOk t2 2 <;>
            simp [h0, h1, h2, List.count_cons, hsleep, hcmd]

/-- Appending a distinct suffix to the same string yields a distinct
string. -/
theorem str_append_ne (s a b : String) (h : a ≠ b) : s ++ a ≠ s ++ b := by
  intro he
  apply h
  have hd := congrArg String.data he
  rw [String.data_append, String.data_append] at hd
  exact String.ext (List.append_cancel_left hd)

/-- C10.  Cleanup never fails: for every environment the result is
success (the source ends in an unconditional `return nil`, so cleanup
can never be the failing phase); the trace is the concatenation of the
five per-target traces in innermost-first source order (`dev/pts`
strictly before `dev`); a target that is not currently mounted triggers
no attempt at all; and each target's lazy unmount is attempted at most
three times, failures being swallowed. -/
theorem cleanup_always_succeeds (b : Builder) (env : UmountEnv) :
    (cleanup b env).1 = .ok () ∧
    (cleanup b env).2 =
      cleanupTraceFor env (b.chrootDir ++ "/dev/pts") ++
      cleanupTraceFor env (b.chrootDir ++ "/dev") ++
      cleanupTraceFor env (b.chrootDir ++ "/proc") ++
      cleanupTraceFor env (b.chrootDir ++ "/sys") ++
      cleanupTraceFor env (b.chrootDir ++ "/run") ∧
    (∀ target, isMounted env.procMounts target = false →
      cleanupTraceFor env target = []) ∧
    (∀ target ∈ cleanupMounts b.chrootDir,
      (cleanup b env).2.count (umountCmd target) ≤ 3) := by
  have htr : (cleanup b env).2 =
      cleanupTraceFor env (b.chrootDir ++ "/dev/pts") ++
      cleanupTraceFor env (b.chrootDir ++ "/dev") ++
      cleanupTraceFor env (b.chrootDir ++ "/proc") ++
      cleanupTraceFor env (b.chrootDir ++ "/sys") ++
      cleanupTraceFor env (b.chrootDir ++ "/run") := by
    simp [cleanup, cleanupMounts, List.foldl]
  refine ⟨rfl, htr, ?_, ?_⟩
  · intro target hm
    simp [cleanupTraceFor, hm]
  · intro target hmem
    rw [htr]
    simp only [List.count_append]
    have hb := fun t2 => count_cleanupTraceFor env target t2
    simp only [cleanupMounts, List.mem_cons, List.not_mem_nil, or_false] at hmem
    have hone : ∀ a b2 : String, a ≠ b2 →
        (cleanupTraceFor env (b.chrootDir ++ b2)).count (umountCmd (b.chrootDir ++ a)) = 0 := by
      intro a b2 hne
      have := count_cleanupTraceFor env (b.chrootDir ++ a) (b.chrootDir ++ b2)
      rw [if_neg (str_append_ne b.chrootDir a b2 hne)] at this
      exact Nat.le_zero.1 this
    have hle3 : ∀ t2 : String,
        (cleanupTraceFor env t2).count (umountCmd t2) ≤ 3 := by
      intro t2
      have := count_cleanupTraceFor env t2 t2
      rwa [if_pos rfl] at this
    rcases hmem with h | h | h | h | h <;> subst h <;>
      simp [hone _ _ (by decide : ("/dev/pts" : String) ≠ "/dev"),
        hone _ _ (by decide : ("/dev/pts" : String) ≠ "/proc"),
        hone _ _ (by decide : ("/dev/pts" : String) ≠ "/sys"),
        hone _ _ (by decide : ("/dev/pts" : String) ≠ "/run"),
        hone _ _ (by decide : ("/dev" : String) ≠ "/dev/pts"),
        hone _ _ (by decide : ("/dev" : String) ≠ "/proc"),
        hone _ _ (by decide : ("/dev" : String) ≠ "/sys"),
        hone _ _ (by decide : ("/dev" : String) ≠ "/run"),
        hone _ _ (by decide : ("/proc" : String) ≠ "/dev/pts"),
        hone _ _ (by decide : ("/proc" : String) ≠ "/dev"),
        hone _ _ (by decide : ("/proc" : String) ≠ "/sys"),
        hone _ _ (by decide : ("/proc" : String) ≠ "/run"),
        hone _ _ (by decide : ("/sys" : String) ≠ "/dev/pts"),
        hone _ _ (by decide : ("/sys" : String) ≠ "/dev"),
        hone _ _ (by decide : ("/sys" : String) ≠ "/proc"),
        hone _ _ (by decide : ("/sys" : String) ≠ "/run"),
        hone _ _ (by decide : ("/run" : String) ≠ "/dev/pts"),
        hone _ _ (by decide : ("/run" : String) ≠ "/dev"),
        hone _ _ (by decide : ("/run" : String) ≠ "/proc"),
        hone _ _ (by decide : ("/run" : String) ≠ "/sys"),
        hle3]

/-- C10 witness: the theorem applied at a concrete environment in which
`dev` is mounted and its lazy unmount keeps failing — cleanup still
returns success. -/
theorem cleanup_always_succeeds_witness :
    (cleanup ⟨⟨"ubuntu", "noble", "amd64", "", "", [], [], false, true, true⟩,
        "/w", "/o.iso", "/w/chroot", "/w/image", "", ""⟩
      ⟨["udev /w/chroot/dev devtmpfs rw 0 0"], fun _ _ => false⟩).1 = .ok () :=
  (cleanup_always_succeeds
    ⟨⟨"ubuntu", "noble", "amd64", "", "", [], [], false, true, true⟩,
      "/w", "/o.iso", "/w/chroot", "/w/image", "", ""⟩
    ⟨["udev /w/chroot/dev devtmpfs rw 0 0"], fun _ _ => false⟩).1

end Kagami
